import Mathlib

/-!
Verification of the SublimeDiffView diff-parsing core.

This file is a shallow embedding of the two parser source files,
`parser/hunk_diff.py` (class `HunkDiff`) and `parser/file_diff.py`
(class `FileDiff`).  Strings are modelled as `List Char`, Python `int`
line counters as `Nat` (header fields are decimal digit groups) and the
merge state as `Int` (it is decremented below zero by a left merge).
Editor-facing methods (`get_old_regions`, `add_regions`, phantom
rendering, the `view.replace` buffer edit inside `merge`) act on the
external editor and are outside the modelled core; `merge` is modelled
by its effect on the hunk's own state, the increment or decrement of
`merge_state`.
-/

namespace SublimeDiffView

/-- Python `line.startswith(c)` for a single character `c`, on a line
modelled as a list of characters. -/
def startsWithChar (c : Char) (l : List Char) : Bool :=
  l.head? = some c

/-- Python `int` on a string of decimal digits. -/
def parseNatDigits (l : List Char) : Nat :=
  l.foldl (fun n c => n * 10 + (c.toNat - '0'.toNat)) 0

/-- Splitting on the regex `\r?\n` (`HunkDiff.NEWLINE_MATCH`): a `\r\n`
pair or a lone `\n` separates pieces; the result is always nonempty. -/
def splitNewlines : List Char → List (List Char)
  | [] => [[]]
  | '\r' :: '\n' :: r => [] :: splitNewlines r
  | '\n' :: r => [] :: splitNewlines r
  | c :: r =>
    match splitNewlines r with
    | [] => [[c]]
    | p :: ps => (c :: p) :: ps

/-- The `DiffRegion` value type from `parser/diff_region.py`: kind
(ADD or DEL), start line/column, end line/column. -/
structure DiffRegion where
  kind : String
  start_line : Nat
  start_col : Nat
  end_line : Nat
  end_col : Nat
deriving DecidableEq, Repr

/-- The mutable local state of the loop in `HunkDiff.parse_diff`,
together with the `HunkDiff` fields that the loop writes. -/
structure ParseState where
  old_cur : Nat
  new_cur : Nat
  new_add_start : Nat
  old_del_start : Nat
  in_add : Bool
  in_del : Bool
  old_regions : List DiffRegion
  new_regions : List DiffRegion
  add_lines : Nat
  del_lines : Nat
  old_focus : Int
  new_focus : Int
deriving Repr

/-- One iteration of the `for line in self.hunk_diff_lines + [' ']` loop
in `HunkDiff.parse_diff`, in source order: close an ADD region, close a
DEL region, count/open runs, record focus lines, advance the cursors. -/
def step (s : ParseState) (line : List Char) : ParseState :=
  let s := if s.in_add && !(startsWithChar '+' line) then
      { s with
        new_regions := s.new_regions ++ [⟨"ADD", s.new_add_start, 0, s.new_cur, 0⟩],
        in_add := false }
    else s
  let s := if s.in_del && !(startsWithChar '-' line) then
      { s with
        old_regions := s.old_regions ++ [⟨"DEL", s.old_del_start, 0, s.old_cur, 0⟩],
        in_del := false }
    else s
  let s := if startsWithChar '+' line then
      let s := { s with add_lines := s.add_lines + 1 }
      if !s.in_add then { s with new_add_start := s.new_cur, in_add := true } else s
    else if startsWithChar '-' line then
      let s := { s with del_lines := s.del_lines + 1 }
      if !s.in_del then { s with old_del_start := s.old_cur, in_del := true } else s
    else s
  let s := if !(startsWithChar ' ' line) then
      let s := if s.old_focus = -1 then { s with old_focus := (s.old_cur : Int) } else s
      if s.new_focus = -1 then { s with new_focus := (s.new_cur : Int) } else s
    else s
  let s := if !(startsWithChar '+' line) then { s with old_cur := s.old_cur + 1 } else s
  if !(startsWithChar '-' line) then { s with new_cur := s.new_cur + 1 } else s

/-- The whole `HunkDiff.parse_diff` loop: fold `step` over the body
lines with the dummy blank sentinel line appended at the end. -/
def parseBody (s : ParseState) (lines : List (List Char)) : ParseState :=
  (lines ++ [[' ']]).foldl step s

/-- The `HunkDiff` object: header fields, context line, body lines, and
everything `__init__`/`parse_diff` compute from them.  The description
strings and the lazily cached full regions/texts (editor objects) are
rendering-only and not part of the modelled core. -/
structure HunkDiff where
  old_line_start : Nat
  old_hunk_len : Nat
  new_line_start : Nat
  new_hunk_len : Nat
  context : List Char
  hunk_diff_lines : List (List Char)
  old_regions : List DiffRegion
  new_regions : List DiffRegion
  old_line_focus : Int
  new_line_focus : Int
  add_lines : Nat
  del_lines : Nat
  hunk_type : String
  merge_state : Int
deriving DecidableEq, Repr

/-- Class attribute `HunkDiff.UNMERGED = 0`. -/
def HunkDiff.UNMERGED : Int := 0

/-- Class attribute `HunkDiff.MERGED_RIGHT = 1`. -/
def HunkDiff.MERGED_RIGHT : Int := 1

/-- Class attribute `HunkDiff.MERGED_LEFT = -1`. -/
def HunkDiff.MERGED_LEFT : Int := -1

/-- The loop state at entry of `HunkDiff.parse_diff`: cursors at the
header start lines, no open runs, no regions, counters zero, focus
lines unset (-1). -/
def initState (old_line_start new_line_start : Nat) : ParseState :=
  { old_cur := old_line_start, new_cur := new_line_start,
    new_add_start := 0, old_del_start := 0,
    in_add := false, in_del := false,
    old_regions := [], new_regions := [],
    add_lines := 0, del_lines := 0,
    old_focus := -1, new_focus := -1 }

/-- `HunkDiff.__init__` on the five match parts produced by splitting on
`FileDiff.HUNK_MATCH`: numeric header fields (a missing length group
defaults to 1), the context line (first `\r?\n` piece of part 4), the
body lines (the remaining pieces), then `parse_diff` and the
ADD/DEL/MOD classification from the line counters. -/
def mkHunkDiff (m0 m1 m2 m3 m4 : List Char) : HunkDiff :=
  let old_line_start := parseNatDigits m0
  let old_hunk_len := if 0 < m1.length then parseNatDigits m1 else 1
  let new_line_start := parseNatDigits m2
  let new_hunk_len := if 0 < m3.length then parseNatDigits m3 else 1
  let pieces := splitNewlines m4
  let context := pieces.headD []
  let hunk_diff_lines := pieces.tail
  let s := parseBody (initState old_line_start new_line_start) hunk_diff_lines
  let hunk_type :=
    if s.del_lines = 0 then "ADD" else if s.add_lines = 0 then "DEL" else "MOD"
  { old_line_start := old_line_start, old_hunk_len := old_hunk_len,
    new_line_start := new_line_start, new_hunk_len := new_hunk_len,
    context := context, hunk_diff_lines := hunk_diff_lines,
    old_regions := s.old_regions, new_regions := s.new_regions,
    old_line_focus := s.old_focus, new_line_focus := s.new_focus,
    add_lines := s.add_lines, del_lines := s.del_lines,
    hunk_type := hunk_type, merge_state := HunkDiff.UNMERGED }

/-- `HunkDiff.merge_valid(direction)`: valid from UNMERGED in any
direction, from MERGED_LEFT only rightwards, from MERGED_RIGHT only
leftwards. -/
def HunkDiff.merge_valid (h : HunkDiff) (direction : String) : Bool :=
  if h.merge_state = HunkDiff.UNMERGED then true
  else if h.merge_state = HunkDiff.MERGED_LEFT ∧ direction = "right" then true
  else if h.merge_state = HunkDiff.MERGED_RIGHT ∧ direction = "left" then true
  else false

/-- `HunkDiff.merge_changing_view(direction)`: which side's view the
merge will overwrite. -/
def HunkDiff.merge_changing_view (h : HunkDiff) (direction : String) : String :=
  if direction = "right" then
    if h.merge_state = HunkDiff.MERGED_LEFT then "left" else "right"
  else
    if h.merge_state = HunkDiff.MERGED_RIGHT then "right" else "left"

/-- `HunkDiff.merge(view, edit, direction)`, modelled by its effect on
the hunk itself: the `view.replace` call edits the external editor
buffer; the hunk's own state update is `merge_state += 1` for a right
merge and `merge_state -= 1` otherwise, with no validity check. -/
def HunkDiff.merge (h : HunkDiff) (direction : String) : HunkDiff :=
  if direction = "right" then { h with merge_state := h.merge_state + 1 }
  else { h with merge_state := h.merge_state - 1 }

/-- A concrete hunk used to instantiate hypotheses of the merge-state
theorems: freshly parsed, so `merge_state = UNMERGED`. -/
def sampleHunk : HunkDiff :=
  mkHunkDiff ['1', '0'] ['2'] ['1', '0'] ['3']
    "\n unchanged\n+new line\n old line2".toList

/-! Reference functions written from the specification's wording, to be
compared with what `parse_diff` computes. -/

/-- Reference for the ADD regions of a hunk body (spec wording): each
maximal run of consecutive `+`-prefixed lines yields exactly one ADD
region, from the new-side line number of the run's first line to the
new-side cursor just after its last line; the new-side cursor advances
on every line except `-` lines; a run reaching the end of the lines is
still emitted. -/
def specAddRuns (cur : Nat) (run : Option Nat) : List (List Char) → List DiffRegion
  | [] =>
    match run with
    | some st => [⟨"ADD", st, 0, cur, 0⟩]
    | none => []
  | l :: ls =>
    if startsWithChar '+' l then
      specAddRuns (cur + 1) (some (run.getD cur)) ls
    else
      match run with
      | some st =>
        ⟨"ADD", st, 0, cur, 0⟩ :: specAddRuns (if startsWithChar '-' l then cur else cur + 1) none ls
      | none => specAddRuns (if startsWithChar '-' l then cur else cur + 1) none ls

/-- Reference for the DEL regions of a hunk body (spec wording): each
maximal run of consecutive `-`-prefixed lines yields exactly one DEL
region on the old side; the old-side cursor advances on every line
except `+` lines. -/
def specDelRuns (cur : Nat) (run : Option Nat) : List (List Char) → List DiffRegion
  | [] =>
    match run with
    | some st => [⟨"DEL", st, 0, cur, 0⟩]
    | none => []
  | l :: ls =>
    if startsWithChar '-' l then
      specDelRuns (cur + 1) (some (run.getD cur)) ls
    else
      match run with
      | some st =>
        ⟨"DEL", st, 0, cur, 0⟩ :: specDelRuns (if startsWithChar '+' l then cur else cur + 1) none ls
      | none => specDelRuns (if startsWithChar '+' l then cur else cur + 1) none ls

/-- Reference for the focus lines (spec wording): the cursor value at
the first body line that does not start with a space, or -1 when every
line does.  Before that first line only space lines occur, and those
advance both cursors, so one function serves both sides. -/
def specFocus (cur : Nat) : List (List Char) → Int
  | [] => -1
  | l :: ls => if startsWithChar ' ' l then specFocus (cur + 1) ls else (cur : Int)

/-! The `FileDiff` side: splitting the diff text on the hunk-header
regex `\r?\n@@ \-(\d+),?(\d*) \+(\d+),?(\d*) @@` and building hunks. -/

/-- Greedy `\d*`: the longest digit prefix and the remainder. -/
def takeDigits : List Char → List Char × List Char
  | [] => ([], [])
  | c :: cs =>
    if c.isDigit then
      let p := takeDigits cs
      (c :: p.1, p.2)
    else ([], c :: cs)

/-- The `,?(\d*)` part of the header pattern: an optional comma followed
by the greedy digit group (empty when there is no comma, since the
greedy `\d+` before it has already consumed every digit). -/
def optCommaDigits : List Char → List Char × List Char
  | ',' :: r => takeDigits r
  | l => ([], l)

/-- The header pattern after the `\r?\n`: literal `@@ -`, group 1
(`\d+`, nonempty), `,?`, group 2 (`\d*`), literal ` +`, group 3
(`\d+`), `,?`, group 4 (`\d*`), literal ` @@`.  Returns the four
captured groups and the unconsumed remainder. -/
def matchAfterNewline :
    List Char → Option (List Char × List Char × List Char × List Char × List Char)
  | '@' :: '@' :: ' ' :: '-' :: r0 =>
    match takeDigits r0 with
    | ([], _) => none
    | (g1, r1) =>
      match optCommaDigits r1 with
      | (g2, r2) =>
        match r2 with
        | ' ' :: '+' :: r3 =>
          match takeDigits r3 with
          | ([], _) => none
          | (g3, r4) =>
            match optCommaDigits r4 with
            | (g4, r5) =>
              match r5 with
              | ' ' :: '@' :: '@' :: r6 => some (g1, g2, g3, g4, r6)
              | _ => none
        | _ => none
  | _ => none

/-- The full `FileDiff.HUNK_MATCH` pattern at one position: `\r?\n`
followed by the header pattern.  A `\r` not followed by `\n` cannot
start a match (the mandatory `\n` would fail either way). -/
def matchHunkHeader :
    List Char → Option (List Char × List Char × List Char × List Char × List Char)
  | '\r' :: '\n' :: r => matchAfterNewline r
  | '\n' :: r => matchAfterNewline r
  | _ => none

/-- The scan of `re.split` over the text, driven by a character fuel:
at each position try the header pattern; on a match emit the piece
accumulated so far (in reverse) and the four groups and continue after
the match, otherwise move one character into the accumulator.  Each
position consumes at least one fuel unit and a match consumes many more
characters than one, so fuel equal to the initial text length always
suffices; the fuel-exhausted fallback closes the current piece with the
unscanned remainder, which coincides with the no-further-match result.
The fuel keeps the recursion structural, hence executable in proofs. -/
def hunkSplitAux : Nat → List Char → List Char → List (List Char)
  | _, acc, [] => [acc.reverse]
  | 0, acc, rest => [acc.reverse ++ rest]
  | fuel + 1, acc, c :: cs =>
    match matchHunkHeader (c :: cs) with
    | some (g1, g2, g3, g4, rest) =>
      acc.reverse :: g1 :: g2 :: g3 :: g4 :: hunkSplitAux fuel [] rest
    | none => hunkSplitAux fuel (c :: acc) cs

/-- `re.split(FileDiff.HUNK_MATCH, text)`: the pieces between matches
interleaved with the four captured groups of each match; always
nonempty (the first piece is the preamble before the first header). -/
def reSplitHunks (l : List Char) : List (List Char) :=
  hunkSplitAux l.length [] l

/-- The parsed hunk list entries of a `FileDiff`: real hunks, plus the
synthetic header pseudo-hunk.  Modelled from the spec: `DummyHunkDiff`
is referenced by `file_diff.py` but its class body is not among the
sources; the spec (section 4.1) describes it as a dummy hunk prepended
when headers are requested, representing position zero of the file and
carrying no regions, constructed at its call site with the current
hunk count. -/
inductive Hunk where
  | real (h : HunkDiff)
  | dummy (position : Nat)
deriving DecidableEq, Repr

/-- The `while len(hunks) >= match_len` loop of `FileDiff.parse_diff`:
consume the split output five entries at a time (four header groups and
one body) building one `HunkDiff` per chunk; a leftover of fewer than
five entries is dropped. -/
def buildHunks : List (List Char) → List Hunk
  | m0 :: m1 :: m2 :: m3 :: m4 :: rest =>
    Hunk.real (mkHunkDiff m0 m1 m2 m3 m4) :: buildHunks rest
  | _ => []

/-- The `FileDiff` object.  The filename/identity fields are unused by
the parsing core and omitted.  `parse_count` is a ghost counter with no
Python counterpart: no operation reads it; it only records how many
times `parse_diff` has run, so that re-parsing is observable in the
model. -/
structure FileDiff where
  diff_text : List Char
  hunks : List Hunk
  parse_count : Nat
deriving DecidableEq, Repr

/-- `FileDiff.__init__`: stores the diff text with an empty hunk
list. -/
def FileDiff.init (diff_text : List Char) : FileDiff :=
  { diff_text := diff_text, hunks := [], parse_count := 0 }

/-- `FileDiff.parse_diff(include_headers)`: split the diff text on the
hunk-header pattern, drop the leading preamble piece, build one hunk
per five-entry chunk appending to the current list, and, when headers
are requested, insert the dummy header hunk at position zero. -/
def FileDiff.parse_diff (fd : FileDiff) (include_headers : Bool) : FileDiff :=
  let parts := (reSplitHunks fd.diff_text).tail
  let hs := fd.hunks ++ buildHunks parts
  let hs2 := if include_headers then Hunk.dummy hs.length :: hs else hs
  { fd with hunks := hs2, parse_count := fd.parse_count + 1 }

/-- `FileDiff.get_hunks(include_headers)`: parse only when the hunk
list is empty (Python truthiness of `self.hunks`), then return it. -/
def FileDiff.get_hunks (fd : FileDiff) (include_headers : Bool) :
    List Hunk × FileDiff :=
  if fd.hunks.isEmpty then
    let fd2 := fd.parse_diff include_headers
    (fd2.hunks, fd2)
  else (fd.hunks, fd)

/-! Projection lemmas for one `step` of the parse loop. -/

/-- The net effect of one loop iteration on every field of the state.
Proved by exhausting the branch conditions; a body line has one first
character, so the branches where it would start with two different
characters at once are vacuous. -/
theorem step_eq (s : ParseState) (l : List Char) :
    step s l =
      { old_cur := if startsWithChar '+' l then s.old_cur else s.old_cur + 1,
        new_cur := if startsWithChar '-' l then s.new_cur else s.new_cur + 1,
        new_add_start :=
          if startsWithChar '+' l && !s.in_add then s.new_cur else s.new_add_start,
        old_del_start :=
          if startsWithChar '-' l && !s.in_del then s.old_cur else s.old_del_start,
        in_add := startsWithChar '+' l,
        in_del := startsWithChar '-' l,
        old_regions :=
          if s.in_del && !(startsWithChar '-' l) then
            s.old_regions ++ [⟨"DEL", s.old_del_start, 0, s.old_cur, 0⟩]
          else s.old_regions,
        new_regions :=
          if s.in_add && !(startsWithChar '+' l) then
            s.new_regions ++ [⟨"ADD", s.new_add_start, 0, s.new_cur, 0⟩]
          else s.new_regions,
        add_lines := if startsWithChar '+' l then s.add_lines + 1 else s.add_lines,
        del_lines := if startsWithChar '-' l then s.del_lines + 1 else s.del_lines,
        old_focus :=
          if !(startsWithChar ' ' l) && s.old_focus = -1 then (s.old_cur : Int)
          else s.old_focus,
        new_focus :=
          if !(startsWithChar ' ' l) && s.new_focus = -1 then (s.new_cur : Int)
          else s.new_focus } := by
  cases hp : startsWithChar '+' l <;> cases hm : startsWithChar '-' l <;>
    cases hsp : startsWithChar ' ' l <;> cases ha : s.in_add <;> cases hd : s.in_del <;>
      by_cases hof : s.old_focus = -1 <;> by_cases hnf : s.new_focus = -1 <;>
        (simp [step, hp, hm, hsp, ha, hd, hof, hnf] <;> simp_all [startsWithChar])

theorem step_new_cur (s : ParseState) (l : List Char) :
    (step s l).new_cur = if startsWithChar '-' l then s.new_cur else s.new_cur + 1 := by
  rw [step_eq]

theorem step_old_cur (s : ParseState) (l : List Char) :
    (step s l).old_cur = if startsWithChar '+' l then s.old_cur else s.old_cur + 1 := by
  rw [step_eq]

theorem step_in_add (s : ParseState) (l : List Char) :
    (step s l).in_add = startsWithChar '+' l := by
  rw [step_eq]

theorem step_in_del (s : ParseState) (l : List Char) :
    (step s l).in_del = startsWithChar '-' l := by
  rw [step_eq]

theorem step_new_add_start (s : ParseState) (l : List Char) :
    (step s l).new_add_start =
      if startsWithChar '+' l && !s.in_add then s.new_cur else s.new_add_start := by
  rw [step_eq]

theorem step_old_del_start (s : ParseState) (l : List Char) :
    (step s l).old_del_start =
      if startsWithChar '-' l && !s.in_del then s.old_cur else s.old_del_start := by
  rw [step_eq]

theorem step_new_regions (s : ParseState) (l : List Char) :
    (step s l).new_regions =
      if s.in_add && !(startsWithChar '+' l) then
        s.new_regions ++ [⟨"ADD", s.new_add_start, 0, s.new_cur, 0⟩]
      else s.new_regions := by
  rw [step_eq]

theorem step_old_regions (s : ParseState) (l : List Char) :
    (step s l).old_regions =
      if s.in_del && !(startsWithChar '-' l) then
        s.old_regions ++ [⟨"DEL", s.old_del_start, 0, s.old_cur, 0⟩]
      else s.old_regions := by
  rw [step_eq]

theorem step_add_lines (s : ParseState) (l : List Char) :
    (step s l).add_lines =
      if startsWithChar '+' l then s.add_lines + 1 else s.add_lines := by
  rw [step_eq]

theorem step_del_lines (s : ParseState) (l : List Char) :
    (step s l).del_lines =
      if startsWithChar '-' l then s.del_lines + 1 else s.del_lines := by
  rw [step_eq]

theorem step_old_focus (s : ParseState) (l : List Char) :
    (step s l).old_focus =
      if !(startsWithChar ' ' l) && s.old_focus = -1 then (s.old_cur : Int)
      else s.old_focus := by
  rw [step_eq]

theorem step_new_focus (s : ParseState) (l : List Char) :
    (step s l).new_focus =
      if !(startsWithChar ' ' l) && s.new_focus = -1 then (s.new_cur : Int)
      else s.new_focus := by
  rw [step_eq]

/-! Characterization of the whole parse loop by induction on the body
lines. -/

theorem parseBody_nil (s : ParseState) : parseBody s [] = step s [' '] := rfl

theorem parseBody_cons (s : ParseState) (l : List Char) (ls : List (List Char)) :
    parseBody s (l :: ls) = parseBody (step s l) ls := rfl

theorem startsWithChar_false_of (c d : Char) (l : List Char) (hcd : c ≠ d)
    (h : startsWithChar c l = true) : startsWithChar d l = false := by
  simp only [startsWithChar, decide_eq_true_eq] at h
  simp [startsWithChar, h, hcd]

theorem parseBody_new_regions (lines : List (List Char)) : ∀ s : ParseState,
    (parseBody s lines).new_regions =
      s.new_regions ++
        specAddRuns s.new_cur (if s.in_add then some s.new_add_start else none) lines := by
  induction lines with
  | nil =>
    intro s
    rw [parseBody_nil, step_eq]
    cases ha : s.in_add <;> simp [specAddRuns, startsWithChar, ha]
  | cons l ls ih =>
    intro s
    rw [parseBody_cons, ih (step s l), step_eq]
    cases hp : startsWithChar '+' l
    · cases ha : s.in_add <;>
        simp [specAddRuns, hp, ha, List.append_assoc]
    · have hm := startsWithChar_false_of '+' '-' l (by decide) hp
      cases ha : s.in_add <;>
        simp [specAddRuns, hp, hm, ha]

theorem parseBody_old_regions (lines : List (List Char)) : ∀ s : ParseState,
    (parseBody s lines).old_regions =
      s.old_regions ++
        specDelRuns s.old_cur (if s.in_del then some s.old_del_start else none) lines := by
  induction lines with
  | nil =>
    intro s
    rw [parseBody_nil, step_eq]
    cases hd : s.in_del <;> simp [specDelRuns, startsWithChar, hd]
  | cons l ls ih =>
    intro s
    rw [parseBody_cons, ih (step s l), step_eq]
    cases hm : startsWithChar '-' l
    · cases hd : s.in_del <;>
        simp [specDelRuns, hm, hd, List.append_assoc]
    · have hp := startsWithChar_false_of '-' '+' l (by decide) hm
      cases hd : s.in_del <;>
        simp [specDelRuns, hm, hp, hd]

theorem parseBody_add_lines (lines : List (List Char)) : ∀ s : ParseState,
    (parseBody s lines).add_lines =
      s.add_lines + lines.countP (startsWithChar '+') := by
  induction lines with
  | nil =>
    intro s
    rw [parseBody_nil, step_eq]
    simp [startsWithChar]
  | cons l ls ih =>
    intro s
    rw [parseBody_cons, ih (step s l), step_eq]
    cases hp : startsWithChar '+' l <;> simp [hp, List.countP_cons] <;> omega

theorem parseBody_del_lines (lines : List (List Char)) : ∀ s : ParseState,
    (parseBody s lines).del_lines =
      s.del_lines + lines.countP (startsWithChar '-') := by
  induction lines with
  | nil =>
    intro s
    rw [parseBody_nil, step_eq]
    simp [startsWithChar]
  | cons l ls ih =>
    intro s
    rw [parseBody_cons, ih (step s l), step_eq]
    cases hm : startsWithChar '-' l <;> simp [hm, List.countP_cons] <;> omega

theorem parseBody_old_focus_set (lines : List (List Char)) : ∀ s : ParseState,
    s.old_focus ≠ -1 → (parseBody s lines).old_focus = s.old_focus := by
  induction lines with
  | nil =>
    intro s hs
    rw [parseBody_nil, step_eq]
    simp [startsWithChar]
  | cons l ls ih =>
    intro s hs
    rw [parseBody_cons]
    have h2 : (step s l).old_focus = s.old_focus := by
      rw [step_eq]; simp [hs]
    rw [ih (step s l) (by rw [h2]; exact hs), h2]

theorem parseBody_new_focus_set (lines : List (List Char)) : ∀ s : ParseState,
    s.new_focus ≠ -1 → (parseBody s lines).new_focus = s.new_focus := by
  induction lines with
  | nil =>
    intro s hs
    rw [parseBody_nil, step_eq]
    simp [startsWithChar]
  | cons l ls ih =>
    intro s hs
    rw [parseBody_cons]
    have h2 : (step s l).new_focus = s.new_focus := by
      rw [step_eq]; simp [hs]
    rw [ih (step s l) (by rw [h2]; exact hs), h2]

theorem parseBody_old_focus (lines : List (List Char)) : ∀ s : ParseState,
    s.old_focus = -1 → (parseBody s lines).old_focus = specFocus s.old_cur lines := by
  induction lines with
  | nil =>
    intro s hs
    rw [parseBody_nil, step_eq]
    simp [startsWithChar, specFocus, hs]
  | cons l ls ih =>
    intro s hs
    rw [parseBody_cons]
    cases hsp : startsWithChar ' ' l
    · have h2 : (step s l).old_focus = (s.old_cur : Int) := by
        rw [step_eq]; simp [hsp, hs]
      have h3 : (step s l).old_focus ≠ -1 := by rw [h2]; omega
      rw [parseBody_old_focus_set ls (step s l) h3, h2]
      simp [specFocus, hsp]
    · have hp := startsWithChar_false_of ' ' '+' l (by decide) hsp
      have h2 : (step s l).old_focus = -1 := by
        rw [step_eq]; simp [hsp, hs]
      have h4 : (step s l).old_cur = s.old_cur + 1 := by
        rw [step_eq]; simp [hp]
      rw [ih (step s l) h2, h4]
      simp [specFocus, hsp]

theorem parseBody_new_focus (lines : List (List Char)) : ∀ s : ParseState,
    s.new_focus = -1 → (parseBody s lines).new_focus = specFocus s.new_cur lines := by
  induction lines with
  | nil =>
    intro s hs
    rw [parseBody_nil, step_eq]
    simp [startsWithChar, specFocus, hs]
  | cons l ls ih =>
    intro s hs
    rw [parseBody_cons]
    cases hsp : startsWithChar ' ' l
    · have h2 : (step s l).new_focus = (s.new_cur : Int) := by
        rw [step_eq]; simp [hsp, hs]
      have h3 : (step s l).new_focus ≠ -1 := by rw [h2]; omega
      rw [parseBody_new_focus_set ls (step s l) h3, h2]
      simp [specFocus, hsp]
    · have hm := startsWithChar_false_of ' ' '-' l (by decide) hsp
      have h2 : (step s l).new_focus = -1 := by
        rw [step_eq]; simp [hsp, hs]
      have h4 : (step s l).new_cur = s.new_cur + 1 := by
        rw [step_eq]; simp [hm]
      rw [ih (step s l) h2, h4]
      simp [specFocus, hsp]

/-! Unfolding lemmas for the constructed hunk. -/

theorem mkHunkDiff_hunk_diff_lines (m0 m1 m2 m3 m4 : List Char) :
    (mkHunkDiff m0 m1 m2 m3 m4).hunk_diff_lines = (splitNewlines m4).tail := rfl

theorem mkHunkDiff_old_line_start (m0 m1 m2 m3 m4 : List Char) :
    (mkHunkDiff m0 m1 m2 m3 m4).old_line_start = parseNatDigits m0 := rfl

theorem mkHunkDiff_new_line_start (m0 m1 m2 m3 m4 : List Char) :
    (mkHunkDiff m0 m1 m2 m3 m4).new_line_start = parseNatDigits m2 := rfl

theorem mkHunkDiff_new_regions (m0 m1 m2 m3 m4 : List Char) :
    (mkHunkDiff m0 m1 m2 m3 m4).new_regions =
      (parseBody (initState (parseNatDigits m0) (parseNatDigits m2))
        ((splitNewlines m4).tail)).new_regions := rfl

theorem mkHunkDiff_old_regions (m0 m1 m2 m3 m4 : List Char) :
    (mkHunkDiff m0 m1 m2 m3 m4).old_regions =
      (parseBody (initState (parseNatDigits m0) (parseNatDigits m2))
        ((splitNewlines m4).tail)).old_regions := rfl

theorem mkHunkDiff_old_line_focus (m0 m1 m2 m3 m4 : List Char) :
    (mkHunkDiff m0 m1 m2 m3 m4).old_line_focus =
      (parseBody (initState (parseNatDigits m0) (parseNatDigits m2))
        ((splitNewlines m4).tail)).old_focus := rfl

theorem mkHunkDiff_new_line_focus (m0 m1 m2 m3 m4 : List Char) :
    (mkHunkDiff m0 m1 m2 m3 m4).new_line_focus =
      (parseBody (initState (parseNatDigits m0) (parseNatDigits m2))
        ((splitNewlines m4).tail)).new_focus := rfl

theorem mkHunkDiff_add_lines (m0 m1 m2 m3 m4 : List Char) :
    (mkHunkDiff m0 m1 m2 m3 m4).add_lines =
      (parseBody (initState (parseNatDigits m0) (parseNatDigits m2))
        ((splitNewlines m4).tail)).add_lines := rfl

theorem mkHunkDiff_del_lines (m0 m1 m2 m3 m4 : List Char) :
    (mkHunkDiff m0 m1 m2 m3 m4).del_lines =
      (parseBody (initState (parseNatDigits m0) (parseNatDigits m2))
        ((splitNewlines m4).tail)).del_lines := rfl

theorem mkHunkDiff_hunk_type (m0 m1 m2 m3 m4 : List Char) :
    (mkHunkDiff m0 m1 m2 m3 m4).hunk_type =
      (if (parseBody (initState (parseNatDigits m0) (parseNatDigits m2))
            ((splitNewlines m4).tail)).del_lines = 0 then "ADD"
       else if (parseBody (initState (parseNatDigits m0) (parseNatDigits m2))
            ((splitNewlines m4).tail)).add_lines = 0 then "DEL"
       else "MOD") := rfl

/-! Claim theorems about the hunk model. -/

/-- C1: for every hunk and every direction in {right, left},
`merge_valid direction` returns true if and only if the merge state is
UNMERGED, or the direction is right and the state is MERGED_LEFT, or
the direction is left and the state is MERGED_RIGHT; in every other
case it returns false. -/
theorem C1_merge_valid_characterization (h : HunkDiff) (d : String)
    (hd : d = "right" ∨ d = "left") :
    h.merge_valid d = true ↔
      (h.merge_state = HunkDiff.UNMERGED ∨
        (d = "right" ∧ h.merge_state = HunkDiff.MERGED_LEFT) ∨
        (d = "left" ∧ h.merge_state = HunkDiff.MERGED_RIGHT)) := by
  rcases hd with rfl | rfl <;>
    simp only [HunkDiff.merge_valid, HunkDiff.UNMERGED, HunkDiff.MERGED_LEFT,
      HunkDiff.MERGED_RIGHT] <;>
    split_ifs <;> simp_all

/-- Witness for C1: the characterization instantiated at a freshly
parsed hunk and the direction right. -/
theorem C1_witness :
    sampleHunk.merge_valid "right" = true ↔
      (sampleHunk.merge_state = HunkDiff.UNMERGED ∨
        ("right" = "right" ∧ sampleHunk.merge_state = HunkDiff.MERGED_LEFT) ∨
        ("right" = "left" ∧ sampleHunk.merge_state = HunkDiff.MERGED_RIGHT)) :=
  C1_merge_valid_characterization sampleHunk "right" (Or.inl rfl)

/-- C2: `merge` increments the merge state by 1 for direction right and
decrements it by 1 for direction left; starting from UNMERGED both
directions are valid, after a right merge the state is MERGED_RIGHT
with a further right merge invalid and a left merge valid, and a
subsequent left merge returns the state to UNMERGED. -/
theorem C2_merge_state_machine (h : HunkDiff) :
    (h.merge "right").merge_state = h.merge_state + 1 ∧
    (h.merge "left").merge_state = h.merge_state - 1 ∧
    (h.merge_state = HunkDiff.UNMERGED →
      h.merge_valid "right" = true ∧ h.merge_valid "left" = true ∧
      (h.merge "right").merge_state = HunkDiff.MERGED_RIGHT ∧
      (h.merge "right").merge_valid "right" = false ∧
      (h.merge "right").merge_valid "left" = true ∧
      ((h.merge "right").merge "left").merge_state = HunkDiff.UNMERGED) := by
  refine ⟨by simp [HunkDiff.merge], by simp [HunkDiff.merge], fun h0 => ?_⟩
  simp [HunkDiff.merge, HunkDiff.merge_valid, HunkDiff.UNMERGED, HunkDiff.MERGED_LEFT,
    HunkDiff.MERGED_RIGHT, h0]

/-- Witness for C2: the UNMERGED scenario at a freshly parsed hunk. -/
theorem C2_witness :
    sampleHunk.merge_valid "right" = true ∧ sampleHunk.merge_valid "left" = true ∧
    (sampleHunk.merge "right").merge_state = HunkDiff.MERGED_RIGHT ∧
    (sampleHunk.merge "right").merge_valid "right" = false ∧
    (sampleHunk.merge "right").merge_valid "left" = true ∧
    ((sampleHunk.merge "right").merge "left").merge_state = HunkDiff.UNMERGED :=
  (C2_merge_state_machine sampleHunk).2.2 rfl

/-- C6: `merge_changing_view right` is right unless the state is
MERGED_LEFT, in which case it is left; `merge_changing_view left` is
left unless the state is MERGED_RIGHT, in which case it is right. -/
theorem C6_merge_changing_view_characterization (h : HunkDiff) :
    h.merge_changing_view "right" =
      (if h.merge_state = HunkDiff.MERGED_LEFT then "left" else "right") ∧
    h.merge_changing_view "left" =
      (if h.merge_state = HunkDiff.MERGED_RIGHT then "right" else "left") := by
  constructor <;> simp [HunkDiff.merge_changing_view]

/-- C7: `merge` performs no validity check, and the three-state
invariant is not preserved out of contract: from UNMERGED, a right
merge reaches MERGED_RIGHT where a further right merge is invalid, yet
performing it anyway sets the state to 2, outside the declared
{UNMERGED, MERGED_LEFT, MERGED_RIGHT} enum. -/
theorem C7_unclamped_state (h : HunkDiff) (h0 : h.merge_state = HunkDiff.UNMERGED) :
    (h.merge "right").merge_state = HunkDiff.MERGED_RIGHT ∧
    (h.merge "right").merge_valid "right" = false ∧
    ((h.merge "right").merge "right").merge_state = 2 ∧
    ¬((2 : Int) = HunkDiff.UNMERGED ∨ (2 : Int) = HunkDiff.MERGED_LEFT ∨
      (2 : Int) = HunkDiff.MERGED_RIGHT) := by
  simp [HunkDiff.merge, HunkDiff.merge_valid, HunkDiff.UNMERGED, HunkDiff.MERGED_LEFT,
    HunkDiff.MERGED_RIGHT, h0]

/-- Witness for C7: the out-of-contract double right merge at a freshly
parsed hunk. -/
theorem C7_witness :
    (sampleHunk.merge "right").merge_valid "right" = false ∧
    ((sampleHunk.merge "right").merge "right").merge_state = 2 :=
  ⟨(C7_unclamped_state sampleHunk rfl).2.1, (C7_unclamped_state sampleHunk rfl).2.2.1⟩

/-- C3 counterexample: the claim requires a hunk with zero added lines
to classify as DEL even when the deleted-line count is also zero, but
the code tests `del_lines == 0` first, so the degenerate hunk with
neither added nor deleted body lines classifies as ADD. -/
theorem C3_counterexample :
    (mkHunkDiff ['1'] [] ['1'] [] ['\n', 'x']).hunk_diff_lines.countP
        (startsWithChar '+') = 0 ∧
    (mkHunkDiff ['1'] [] ['1'] [] ['\n', 'x']).hunk_diff_lines.countP
        (startsWithChar '-') = 0 ∧
    (mkHunkDiff ['1'] [] ['1'] [] ['\n', 'x']).hunk_type = "ADD" ∧
    ¬(mkHunkDiff ['1'] [] ['1'] [] ['\n', 'x']).hunk_type = "DEL" := by
  decide

/-- C3 amended: for every parsed hunk, `add_lines` and `del_lines`
equal the counts of body lines prefixed with `+` and with `-`
respectively, and `hunk_type` is ADD when the
`-` count is zero (including the degenerate hunk where both counts are
zero, which is ADD, not DEL), DEL when the `+` count is zero and the
`-` count nonzero, and MOD when both are nonzero. -/
theorem C3_classification (m0 m1 m2 m3 m4 : List Char) :
    (mkHunkDiff m0 m1 m2 m3 m4).add_lines =
      (mkHunkDiff m0 m1 m2 m3 m4).hunk_diff_lines.countP (startsWithChar '+') ∧
    (mkHunkDiff m0 m1 m2 m3 m4).del_lines =
      (mkHunkDiff m0 m1 m2 m3 m4).hunk_diff_lines.countP (startsWithChar '-') ∧
    (mkHunkDiff m0 m1 m2 m3 m4).hunk_type =
      (if (mkHunkDiff m0 m1 m2 m3 m4).hunk_diff_lines.countP (startsWithChar '-') = 0
       then "ADD"
       else if (mkHunkDiff m0 m1 m2 m3 m4).hunk_diff_lines.countP (startsWithChar '+') = 0
       then "DEL"
       else "MOD") := by
  have ha := parseBody_add_lines ((splitNewlines m4).tail)
    (initState (parseNatDigits m0) (parseNatDigits m2))
  have hd := parseBody_del_lines ((splitNewlines m4).tail)
    (initState (parseNatDigits m0) (parseNatDigits m2))
  refine ⟨?_, ?_, ?_⟩
  · rw [mkHunkDiff_add_lines, mkHunkDiff_hunk_diff_lines, ha]
    simp [initState]
  · rw [mkHunkDiff_del_lines, mkHunkDiff_hunk_diff_lines, hd]
    simp [initState]
  · rw [mkHunkDiff_hunk_type, mkHunkDiff_hunk_diff_lines, ha, hd]
    simp [initState]

/-- C4: for every hunk body, the ADD regions are exactly one whole-run
region per maximal run of consecutive `+`-prefixed body lines, and the
DEL regions one per maximal run of `-`-prefixed lines, with a trailing
run closed by the appended sentinel blank line and still emitted (the
reference functions emit the pending run when the lines end). -/
theorem C4_maximal_runs (m0 m1 m2 m3 m4 : List Char) :
    (mkHunkDiff m0 m1 m2 m3 m4).new_regions =
      specAddRuns (mkHunkDiff m0 m1 m2 m3 m4).new_line_start none
        (mkHunkDiff m0 m1 m2 m3 m4).hunk_diff_lines ∧
    (mkHunkDiff m0 m1 m2 m3 m4).old_regions =
      specDelRuns (mkHunkDiff m0 m1 m2 m3 m4).old_line_start none
        (mkHunkDiff m0 m1 m2 m3 m4).hunk_diff_lines := by
  have hn := parseBody_new_regions ((splitNewlines m4).tail)
    (initState (parseNatDigits m0) (parseNatDigits m2))
  have ho := parseBody_old_regions ((splitNewlines m4).tail)
    (initState (parseNatDigits m0) (parseNatDigits m2))
  constructor
  · rw [mkHunkDiff_new_regions, mkHunkDiff_new_line_start, mkHunkDiff_hunk_diff_lines, hn]
    simp [initState]
  · rw [mkHunkDiff_old_regions, mkHunkDiff_old_line_start, mkHunkDiff_hunk_diff_lines, ho]
    simp [initState]

/-- C5 counterexample: the claim requires `old_line_focus = -1` for a
hunk whose body has no `-`-prefixed line, but for the pure-addition
hunk `@@ -5 +5,2 @@` with body `+added` the code records
`old_line_focus = 5` (both focus fields are written at the first
non-space line, whichever side it belongs to). -/
theorem C5_counterexample :
    (mkHunkDiff ['5'] [] ['5'] ['2'] ['\n', '+', 'a']).hunk_diff_lines.countP
        (startsWithChar '-') = 0 ∧
    (mkHunkDiff ['5'] [] ['5'] ['2'] ['\n', '+', 'a']).old_line_focus = 5 ∧
    ¬(mkHunkDiff ['5'] [] ['5'] ['2'] ['\n', '+', 'a']).old_line_focus = -1 := by
  decide

/-- C5 amended: both focus fields are recorded at the first body line
that does not start with a space — each equals the corresponding side's
cursor value at that line — and both are -1 exactly when every body
line starts with a space, in which case parsing still succeeds. -/
theorem C5_focus_lines (m0 m1 m2 m3 m4 : List Char) :
    (mkHunkDiff m0 m1 m2 m3 m4).old_line_focus =
      specFocus (mkHunkDiff m0 m1 m2 m3 m4).old_line_start
        (mkHunkDiff m0 m1 m2 m3 m4).hunk_diff_lines ∧
    (mkHunkDiff m0 m1 m2 m3 m4).new_line_focus =
      specFocus (mkHunkDiff m0 m1 m2 m3 m4).new_line_start
        (mkHunkDiff m0 m1 m2 m3 m4).hunk_diff_lines := by
  have ho := parseBody_old_focus ((splitNewlines m4).tail)
    (initState (parseNatDigits m0) (parseNatDigits m2)) rfl
  have hn := parseBody_new_focus ((splitNewlines m4).tail)
    (initState (parseNatDigits m0) (parseNatDigits m2)) rfl
  constructor
  · rw [mkHunkDiff_old_line_focus, mkHunkDiff_old_line_start, mkHunkDiff_hunk_diff_lines, ho]
    simp [initState]
  · rw [mkHunkDiff_new_line_focus, mkHunkDiff_new_line_start, mkHunkDiff_hunk_diff_lines, hn]
    simp [initState]

/-! Claim theorems about the FileDiff model. -/

/-- C8: parsing the diff text whose single hunk header is
`@@ -5 +5,2 @@` (old length omitted) with body lines `ctx` and
`+added` yields exactly that one hunk; its `old_hunk_len` is 1 (the
omitted comma-length field defaults to 1), its `hunk_type` is ADD, and
it has exactly one ADD region spanning new-side line 6 (from line 6
column 0 to line 7 column 0, a whole-line span covering line 6). -/
theorem C8_omitted_length_example :
    ((FileDiff.init "x\n@@ -5 +5,2 @@\nctx\n+added".toList).get_hunks false).1 =
      [Hunk.real (mkHunkDiff ['5'] [] ['5'] ['2'] "\nctx\n+added".toList)] ∧
    (mkHunkDiff ['5'] [] ['5'] ['2'] "\nctx\n+added".toList).old_hunk_len = 1 ∧
    (mkHunkDiff ['5'] [] ['5'] ['2'] "\nctx\n+added".toList).hunk_type = "ADD" ∧
    (mkHunkDiff ['5'] [] ['5'] ['2'] "\nctx\n+added".toList).new_regions =
      [⟨"ADD", 6, 0, 7, 0⟩] := by
  decide

/-- C9 counterexample: over empty diff text (no hunk headers), the
first `get_hunks(include_headers=False)` call returns the empty list
and leaves the hunk list empty, so a second call with
`include_headers=True` re-parses (the ghost parse counter reaches 2)
and returns a different, nonempty list holding the dummy header
hunk — refuting "every call after the first returns the same hunk list
as the first call, without the diff text being re-parsed". -/
theorem C9_counterexample :
    ((FileDiff.init []).get_hunks false).1 = [] ∧
    (((FileDiff.init []).get_hunks false).2.get_hunks true).1 = [Hunk.dummy 0] ∧
    ¬(((FileDiff.init []).get_hunks false).2.get_hunks true).1 =
      ((FileDiff.init []).get_hunks false).1 ∧
    (((FileDiff.init []).get_hunks false).2.get_hunks true).2.parse_count = 2 := by
  decide

/-- C9 amended: whenever a `get_hunks` call returns a nonempty hunk
list, every later call — with either `include_headers` argument —
returns that same list and leaves the `FileDiff` unchanged (so the text
is not re-parsed); the memoization fails to engage only when the parse
produced an empty hunk list (no headers and `include_headers=False`),
in which case later calls re-parse and a later
`include_headers=True` call returns a different, nonempty list. -/
theorem C9_memoization (fd : FileDiff) (b1 b2 : Bool)
    (hne : (fd.get_hunks b1).1 ≠ []) :
    (fd.get_hunks b1).2.get_hunks b2 = fd.get_hunks b1 := by
  by_cases he : fd.hunks.isEmpty
  · have h1 : fd.get_hunks b1 = ((fd.parse_diff b1).hunks, fd.parse_diff b1) := by
      simp [FileDiff.get_hunks, he]
    rw [h1] at hne ⊢
    have h2 : ¬(fd.parse_diff b1).hunks.isEmpty := by
      simpa [List.isEmpty_iff] using hne
    simp [FileDiff.get_hunks, h2]
  · have h1 : fd.get_hunks b1 = (fd.hunks, fd) := by
      simp [FileDiff.get_hunks, he]
    rw [h1]
    simp [FileDiff.get_hunks, he]

/-- Witness for C9: a diff text with one hunk header; the first call
returns a nonempty list and the second call (with headers requested)
returns the same list and state. -/
theorem C9_memoization_witness :
    ((FileDiff.init "x\n@@ -1 +1 @@\n y".toList).get_hunks false).1 ≠ [] ∧
    ((FileDiff.init "x\n@@ -1 +1 @@\n y".toList).get_hunks false).2.get_hunks true =
      (FileDiff.init "x\n@@ -1 +1 @@\n y".toList).get_hunks false :=
  ⟨by decide, C9_memoization (FileDiff.init "x\n@@ -1 +1 @@\n y".toList) false true
    (by decide)⟩

/-- Scanning a text in which the header pattern matches at no position
splits it into the single piece equal to the whole text, for any fuel
and accumulator. -/
theorem hunkSplitAux_no_match (t : List Char) : ∀ (fuel : Nat) (acc : List Char),
    (∀ i, i < t.length → (matchHunkHeader (t.drop i)).isNone = true) →
    hunkSplitAux fuel acc t = [acc.reverse ++ t] := by
  induction t with
  | nil =>
    intro fuel acc h
    cases fuel <;> simp [hunkSplitAux]
  | cons c cs ih =>
    intro fuel acc h
    cases fuel with
    | zero => simp [hunkSplitAux]
    | succ fuel =>
      have h0 : matchHunkHeader (c :: cs) = none := by
        have := h 0 (by simp)
        simpa [Option.isNone_iff_eq_none] using this
      rw [hunkSplitAux, h0]
      rw [ih fuel (c :: acc) ?_]
      · simp
      · intro i hi
        have := h (i + 1) (by simpa using Nat.succ_lt_succ hi)
        simpa using this

/-- C10: a hunk header is recognized only when preceded by a newline:
any diff text that itself begins with a well-formed header
`@@ -a,b +c,d @@` (it matches the after-newline part of the pattern at
position zero) but in which the full newline-prefixed pattern matches
nowhere yields the empty hunk list from
`get_hunks(include_headers=False)` — the entire text is silently
discarded as preamble. -/
theorem C10_header_at_start_ignored (t : List Char)
    (hstart : (matchAfterNewline t).isSome = true)
    (hno : ∀ i, i < t.length → (matchHunkHeader (t.drop i)).isNone = true) :
    ((FileDiff.init t).get_hunks false).1 = [] := by
  have hsplit : reSplitHunks t = [t] := by
    have h2 := hunkSplitAux_no_match t t.length [] hno
    simpa [reSplitHunks] using h2
  simp [FileDiff.get_hunks, FileDiff.init, FileDiff.parse_diff, hsplit, buildHunks]

/-- Witness for C10: the text `@@ -1,1 +1,1 @@\n x` starts with a
well-formed header, matches the newline-prefixed pattern nowhere, and
produces the empty hunk list. -/
theorem C10_witness :
    (matchAfterNewline "@@ -1,1 +1,1 @@\n x".toList).isSome = true ∧
    (∀ i, i < "@@ -1,1 +1,1 @@\n x".toList.length →
      (matchHunkHeader ("@@ -1,1 +1,1 @@\n x".toList.drop i)).isNone = true) ∧
    ((FileDiff.init "@@ -1,1 +1,1 @@\n x".toList).get_hunks false).1 = [] :=
  ⟨by decide, by decide,
    C10_header_at_start_ignored "@@ -1,1 +1,1 @@\n x".toList (by decide) (by decide)⟩

end SublimeDiffView
